import Mathlib

/-!
A verification development for the Ampere Analyzer simulation engine.

The definitions below are a shallow embedding, over `ℚ`, of the
simulation-and-streaming core of the repository:

* `checkCurrent`, `addDataPoint`, the linear-sweep and bisection search
  loops and the result finalizer of `runSimulation`
  (components/app/ampere-analyzer, the version carrying both search
  algorithms; source lines are cited at each definition);
* `OptimizedDataQueue.enqueue` / `.dequeue` and
  `EasingInterpolator.interpolate` from lib/simulation-optimizations.ts.

JavaScript numbers are modelled as rationals; the human-readable
`details` strings, timestamps of interpolated points and the React
state plumbing are not modelled.  The `type.includes('MOSFET') ||
type.includes('GaN')` test on the transistor-type string is abstracted
into the boolean field `transistorIsMosfet`, and the cooling-method
lookup in constants.ts is abstracted into the two numeric fields of
`CoolingMethod` carried by the parameter record.
-/

namespace AmpereAnalyzer

/-- `simulationMode` field: 'ftf' | 'temp' | 'budget'. -/
inductive SimMode where
  | ftf
  | temp
  | budget
deriving DecidableEq, Repr

/-- `simulationAlgorithm` field: 'iterative' | 'binary'. -/
inductive SimAlgorithm where
  | iterative
  | binary
deriving DecidableEq, Repr

/-- `SimulationResult.failureReason` values (types.ts). -/
inductive FailureReason where
  | thermal
  | voltage
  | currentLimit
  | powerDissipation
  | coolingBudget
deriving DecidableEq, Repr

/-- `SimulationResult.status` values (types.ts). -/
inductive Status where
  | success
  | failure
deriving DecidableEq, Repr

/-- A cooling method's numeric data (constants.ts `CoolingMethod`). -/
structure CoolingMethod where
  thermalResistance : ℚ
  coolingBudget : ℚ
deriving DecidableEq, Repr

/-- The form values consumed by `runSimulation`.  Optional numeric form
fields (`powerDissipation`, `rdsOn`, `vceSat`, `coolingBudget`) are
`Option ℚ`, matching `number | undefined`. -/
structure FormValues where
  transistorIsMosfet : Bool       -- isMosfetType(transistorType)
  maxCurrent : ℚ                  -- A
  maxVoltage : ℚ                  -- V
  powerDissipation : Option ℚ     -- W, optional
  rdsOn : Option ℚ                -- mΩ, optional
  vceSat : Option ℚ               -- V, optional
  riseTime : ℚ                    -- ns
  fallTime : ℚ                    -- ns
  rthJC : ℚ                       -- °C/W
  maxTemperature : ℚ              -- °C
  simulationMode : SimMode
  simulationAlgorithm : SimAlgorithm
  precisionSteps : ℕ
  switchingFrequency : ℚ          -- kHz
  ambientTemperature : ℚ          -- °C
  coolingBudget : Option ℚ        -- W, optional user override
  selectedCooling : CoolingMethod
deriving DecidableEq, Repr

/-- JavaScript truthiness of an optional number: `undefined` and `0`
are falsy, every other number is truthy. -/
def truthy : Option ℚ → Bool
  | none => false
  | some x => x != 0

/-- JavaScript `x || 0` on an optional number (`0` maps to `0`, so this
is just the default-to-zero read). -/
def orZero : Option ℚ → ℚ
  | none => 0
  | some x => x

/-- `totalRth = rthJC + selectedCooling.thermalResistance`. -/
def totalRth (v : FormValues) : ℚ :=
  v.rthJC + v.selectedCooling.thermalResistance

/-- `rdsOnOhms = (rdsOn || 0) / 1000` (mΩ → Ω). -/
def rdsOnOhms (v : FormValues) : ℚ :=
  orZero v.rdsOn / 1000

/-- `fSwHz = switchingFrequency * 1000` (kHz → Hz). -/
def fSwHz (v : FormValues) : ℚ :=
  v.switchingFrequency * 1000

/-- `tSwitchingSec = ((riseTime || 0) + (fallTime || 0)) * 1e-9`
(ns → s); `riseTime`/`fallTime` are plain numbers here, so `x || 0`
is the identity. -/
def tSwitchingSec (v : FormValues) : ℚ :=
  (v.riseTime + v.fallTime) * (1 / 1000000000)

/-- `effectiveCoolingBudget = (simulationMode === 'budget' &&
coolingBudget) ? coolingBudget : selectedCooling.coolingBudget`. -/
def effectiveCoolingBudget (v : FormValues) : ℚ :=
  if v.simulationMode = SimMode.budget ∧ truthy v.coolingBudget then
    orZero v.coolingBudget
  else v.selectedCooling.coolingBudget

/-- Conduction loss inside `checkCurrent`:
`isMosfetType ? current² * rdsOnOhms * 0.5 : current * (vceSat || 0) * 0.5`. -/
def pCond (v : FormValues) (current : ℚ) : ℚ :=
  if v.transistorIsMosfet then current ^ 2 * rdsOnOhms v * (1 / 2)
  else current * orZero v.vceSat * (1 / 2)

/-- Switching loss inside `checkCurrent`:
`0.5 * maxVoltage * current * tSwitchingSec * fSwHz`. -/
def pSw (v : FormValues) (current : ℚ) : ℚ :=
  (1 / 2) * v.maxVoltage * current * tSwitchingSec v * fSwHz v

/-- `pTotal = pCond + pSw`. -/
def pTotal (v : FormValues) (current : ℚ) : ℚ :=
  pCond v current + pSw v current

/-- `finalTemp = ambientTemperature + pTotal * totalRth`. -/
def finalTemp (v : FormValues) (current : ℚ) : ℚ :=
  v.ambientTemperature + pTotal v current * totalRth v

/-- The first-to-fail check chain of `checkCurrent` (source lines
274-278): temperature, then device power rating (JS-truthy guard),
then cooling budget, then rated current. -/
def ftfFailure (v : FormValues) (current : ℚ) : Option FailureReason :=
  if finalTemp v current > v.maxTemperature then some FailureReason.thermal
  else if truthy v.powerDissipation ∧ pTotal v current > orZero v.powerDissipation then
    some FailureReason.powerDissipation
  else if pTotal v current > effectiveCoolingBudget v then some FailureReason.coolingBudget
  else if current > v.maxCurrent then some FailureReason.currentLimit
  else none

/-- The mode dispatch of `checkCurrent` (source lines 274-283). -/
def failureReasonAt (v : FormValues) (current : ℚ) : Option FailureReason :=
  match v.simulationMode with
  | SimMode.ftf => ftfFailure v current
  | SimMode.temp =>
      if finalTemp v current > v.maxTemperature then some FailureReason.thermal else none
  | SimMode.budget =>
      if pTotal v current > effectiveCoolingBudget v then some FailureReason.coolingBudget
      else none

/-- The record returned by `checkCurrent` (source lines 285-291); the
`details` string is not modelled. -/
structure CheckResult where
  isSafe : Bool
  failureReason : Option FailureReason
  finalTemperature : ℚ
  powerTotal : ℚ
  powerConduction : ℚ
  powerSwitching : ℚ
deriving DecidableEq, Repr

/-- `checkCurrent` (source lines 261-292). -/
def checkCurrent (v : FormValues) (current : ℚ) : CheckResult :=
  { isSafe := (failureReasonAt v current).isNone
    failureReason := failureReasonAt v current
    finalTemperature := finalTemp v current
    powerTotal := pTotal v current
    powerConduction := pCond v current
    powerSwitching := pSw v current }

/-- `LiveDataPoint` (types.ts). -/
structure LiveDataPoint where
  current : ℚ
  temperature : ℚ
  powerLoss : ℚ
  conductionLoss : ℚ
  switchingLoss : ℚ
  progress : ℚ
  limitValue : ℚ
deriving DecidableEq, Repr

/-- The mode-dependent raw progress computed in `addDataPoint`
(source lines 298-317), before the `Math.min(progress, 100)` clamp. -/
def rawProgress (v : FormValues) (current : ℚ) : ℚ :=
  match v.simulationMode with
  | SimMode.temp => finalTemp v current / v.maxTemperature * 100
  | SimMode.budget => pTotal v current / effectiveCoolingBudget v * 100
  | SimMode.ftf =>
      let tempProgress := finalTemp v current / v.maxTemperature * 100
      let powerProgress :=
        if orZero v.powerDissipation > 0 then
          pTotal v current / orZero v.powerDissipation * 100
        else 0
      let budgetProgress := pTotal v current / effectiveCoolingBudget v * 100
      let currentProgress := current / v.maxCurrent * 100
      max (max (max tempProgress powerProgress) budgetProgress) currentProgress

/-- The mode-dependent `limitValue` set in `addDataPoint`. -/
def limitValueFor (v : FormValues) : ℚ :=
  match v.simulationMode with
  | SimMode.temp => v.maxTemperature
  | SimMode.budget => effectiveCoolingBudget v
  | SimMode.ftf => 100

/-- `addDataPoint` (source lines 294-330): the data point pushed to the
live stream for a probed current, with `progress := Math.min(progress, 100)`. -/
def addDataPoint (v : FormValues) (current : ℚ) : LiveDataPoint :=
  { current := current
    temperature := finalTemp v current
    powerLoss := pTotal v current
    conductionLoss := pCond v current
    switchingLoss := pSw v current
    progress := min (rawProgress v current) 100
    limitValue := limitValueFor v }

/-- `SimulationResult` (types.ts); the `details` string is not modelled. -/
structure SimulationResult where
  status : Status
  maxSafeCurrent : ℚ
  failureReason : Option FailureReason
  finalTemperature : ℚ
  powerTotal : ℚ
  powerConduction : ℚ
  powerSwitching : ℚ
deriving DecidableEq, Repr

/-- `stepSize = (maxCurrent * 1.2) / precisionSteps` of the iterative
branch (source line 335). -/
def stepSize (v : FormValues) : ℚ :=
  v.maxCurrent * (12 / 10) / (v.precisionSteps : ℚ)

/-- The iterative sweep loop (source lines 336-346), unrolled over the
list of remaining step indices: at index `i` the probed current is
`i * stepSize`; a safe step updates `maxSafeCurrent` and emits a data
point, the first unsafe step breaks the loop. -/
def sweepGo (v : FormValues) (msc : ℚ) (pts : List LiveDataPoint) :
    List ℕ → ℚ × List LiveDataPoint
  | [] => (msc, pts)
  | i :: rest =>
      let current := (i : ℚ) * stepSize v
      if (checkCurrent v current).isSafe then
        sweepGo v current (pts ++ [addDataPoint v current]) rest
      else (msc, pts)

/-- The full iterative branch: indices `0, 1, …, precisionSteps`
(`for (let i = 0; i <= precisionSteps; i++)`). -/
def runIterative (v : FormValues) : ℚ × List LiveDataPoint :=
  sweepGo v 0 [] (List.range (v.precisionSteps + 1))

/-- The bisection loop (source lines 347-363), fuelled by the remaining
iteration count: probes `mid = (low + high) / 2`, breaks when
`mid ≤ 0`, always emits a data point for the probed midpoint and then
narrows to the upper half on pass (also recording `mid` as the safe
current) or the lower half on fail. -/
def bisectGo (v : FormValues) :
    ℕ → ℚ → ℚ → ℚ → List LiveDataPoint → ℚ × List LiveDataPoint
  | 0, _, _, msc, pts => (msc, pts)
  | Nat.succ n, low, high, msc, pts =>
      let mid := (low + high) / 2
      if mid ≤ 0 then (msc, pts)
      else if (checkCurrent v mid).isSafe then
        bisectGo v n mid high mid (pts ++ [addDataPoint v mid])
      else
        bisectGo v n low mid msc (pts ++ [addDataPoint v mid])

/-- The full binary branch: `low = 0`, `high = maxCurrent * 1.5`,
15 iterations.  The display-side cleanup that re-sorts the already
delivered React state (source lines 364-372) is not part of the
computed result or of the emitted stream and is not modelled. -/
def runBinary (v : FormValues) : ℚ × List LiveDataPoint :=
  bisectGo v 15 0 (v.maxCurrent * (15 / 10)) 0 []

/-- The result finalizer (source lines 375-393):
`safeCurrent = Math.min(maxSafeCurrent, maxCurrent)`, re-evaluated once;
a safe re-check yields status success, otherwise status failure with the
recorded reason. -/
def finalize (v : FormValues) (msc : ℚ) : SimulationResult :=
  let safeCurrent := min msc v.maxCurrent
  let finalCheck := checkCurrent v safeCurrent
  if finalCheck.isSafe then
    { status := Status.success
      maxSafeCurrent := safeCurrent
      failureReason := finalCheck.failureReason
      finalTemperature := finalCheck.finalTemperature
      powerTotal := finalCheck.powerTotal
      powerConduction := finalCheck.powerConduction
      powerSwitching := finalCheck.powerSwitching }
  else
    { status := Status.failure
      maxSafeCurrent := safeCurrent
      failureReason := finalCheck.failureReason
      finalTemperature := finalCheck.finalTemperature
      powerTotal := finalCheck.powerTotal
      powerConduction := finalCheck.powerConduction
      powerSwitching := finalCheck.powerSwitching }

/-- `runSimulation` (source lines 245-394): runs the selected search
branch and finalizes; also returns the stream of emitted data points
(the `addDataPoint` calls, in emission order). -/
def runSimulation (v : FormValues) : SimulationResult × List LiveDataPoint :=
  let r :=
    match v.simulationAlgorithm with
    | SimAlgorithm.iterative => runIterative v
    | SimAlgorithm.binary => runBinary v
  (finalize v r.1, r.2)

/-! ### The bounded delivery queue (lib/simulation-optimizations.ts) -/

/-- `OptimizedDataQueue.maxSize = 1000`. -/
def maxQueueSize : ℕ := 1000

/-- `OptimizedDataQueue.enqueue` (source lines 15-22): push, then keep
only the newest `maxSize` entries (`this.queue.slice(-this.maxSize)`)
when the bound is exceeded. -/
def enqueue (queue : List LiveDataPoint) (dataPoint : LiveDataPoint) :
    List LiveDataPoint :=
  let pushed := queue ++ [dataPoint]
  if pushed.length > maxQueueSize then
    pushed.drop (pushed.length - maxQueueSize)
  else pushed

/-- The mutable state of an `OptimizedDataQueue`: the backing array and
`lastProcessTime`. -/
structure QueueState where
  queue : List LiveDataPoint
  lastProcessTime : ℚ
deriving DecidableEq, Repr

/-- `OptimizedDataQueue.dequeue` (source lines 27-43), returning the
dequeued point (if any) together with the updated queue state.  An
empty queue or a call within 8 ms of the last processed drain is a
no-op.  In binary mode one point is shifted from the front; in
iterative mode `max(1, ⌊length / 10⌋)` points are spliced from the
front and the last of them is returned. -/
def dequeue (s : QueueState) (algorithm : SimAlgorithm) (currentTime : ℚ) :
    Option LiveDataPoint × QueueState :=
  if s.queue.length = 0 then (none, s)
  else if currentTime - s.lastProcessTime < 8 then (none, s)
  else
    let s1 : QueueState := { s with lastProcessTime := currentTime }
    match algorithm with
    | SimAlgorithm.binary =>
        match s1.queue with
        | [] => (none, s1)
        | x :: rest => (some x, { s1 with queue := rest })
    | SimAlgorithm.iterative =>
        let skipCount := max 1 (s1.queue.length / 10)
        let skipped := s1.queue.take skipCount
        (skipped.getLast?, { s1 with queue := s1.queue.drop skipCount })

/-! ### The easing interpolator (lib/simulation-optimizations.ts) -/

/-- `InterpolatedDataPoint` (types.ts); the `performance.now()`
timestamp is not modelled. -/
structure InterpolatedDataPoint where
  current : ℚ
  temperature : ℚ
  powerLoss : ℚ
  conductionLoss : ℚ
  switchingLoss : ℚ
  progress : ℚ
  limitValue : ℚ
  isInterpolated : Bool
deriving DecidableEq, Repr

/-- `EasingInterpolator.easeInOutQuad` (source line 143):
`t < 0.5 ? 2t² : -1 + (4 - 2t)t`. -/
def easeInOutQuad (t : ℚ) : ℚ :=
  if t < 1 / 2 then 2 * t * t else -1 + (4 - 2 * t) * t

/-- `EasingInterpolator.interpolate` (source lines 149-175): with no
previous keyframe the target passes through unmodified; otherwise the
progress is clamped to `[0,1]`, eased, and every numeric field is
blended linearly, except `limitValue` which is taken from the target. -/
def interpolate (fromPt : Option LiveDataPoint) (toPt : LiveDataPoint)
    (progress : ℚ) : InterpolatedDataPoint :=
  match fromPt with
  | none =>
      { current := toPt.current
        temperature := toPt.temperature
        powerLoss := toPt.powerLoss
        conductionLoss := toPt.conductionLoss
        switchingLoss := toPt.switchingLoss
        progress := toPt.progress
        limitValue := toPt.limitValue
        isInterpolated := false }
  | some f =>
      let easedProgress := easeInOutQuad (max 0 (min 1 progress))
      { current := f.current + (toPt.current - f.current) * easedProgress
        temperature := f.temperature + (toPt.temperature - f.temperature) * easedProgress
        powerLoss := f.powerLoss + (toPt.powerLoss - f.powerLoss) * easedProgress
        conductionLoss := f.conductionLoss + (toPt.conductionLoss - f.conductionLoss) * easedProgress
        switchingLoss := f.switchingLoss + (toPt.switchingLoss - f.switchingLoss) * easedProgress
        progress := f.progress + (toPt.progress - f.progress) * easedProgress
        limitValue := toPt.limitValue
        isInterpolated := true }

/-! ## Helper lemmas -/

theorem finalize_maxSafeCurrent (v : FormValues) (msc : ℚ) :
    (finalize v msc).maxSafeCurrent = min msc v.maxCurrent := by
  simp only [finalize]
  split <;> rfl

theorem runSimulation_fst (v : FormValues) :
    (runSimulation v).1 =
      finalize v
        (match v.simulationAlgorithm with
          | SimAlgorithm.iterative => runIterative v
          | SimAlgorithm.binary => runBinary v).1 := by
  simp only [runSimulation]

/-! ## C1: the finalized result never exceeds the rated current -/

/-- C1.  For every parameter set (hence for either search strategy),
the `SimulationResult` produced at the end of a `runSimulation` run
satisfies `result.maxSafeCurrent ≤ parameters.maxCurrent`: the result
finalizer clamps the accepted safe current with
`Math.min(maxSafeCurrent, maxCurrent)`. -/
theorem result_maxSafeCurrent_le_maxCurrent (v : FormValues) :
    (runSimulation v).1.maxSafeCurrent ≤ v.maxCurrent := by
  rw [runSimulation_fst, finalize_maxSafeCurrent]
  exact min_le_right _ _

/-! ## C2: the loss/temperature model -/

/-- C2.  `checkCurrent` computes conduction loss as
`current² × onResistance × 0.5` for a resistive-channel (MOSFET/GaN)
device — with `onResistance = (rdsOn ∣∣ 0) / 1000`, the mΩ form field
converted to Ω — and `current × saturationVoltage × 0.5` otherwise;
switching loss as `0.5 × maxVoltage × current × (riseTime + fallTime) ×
switchingFrequency` (times converted ns → s, frequency kHz → Hz);
`totalLoss = conductionLoss + switchingLoss`; and
`temperature = ambient + totalLoss × (junction-to-case thermal
resistance + cooling-solution thermal resistance)`. -/
theorem checkCurrent_loss_model (v : FormValues) (current : ℚ) :
    (checkCurrent v current).powerConduction =
      (if v.transistorIsMosfet then current ^ 2 * (orZero v.rdsOn / 1000) * (1 / 2)
       else current * orZero v.vceSat * (1 / 2))
  ∧ (checkCurrent v current).powerSwitching =
      1 / 2 * v.maxVoltage * current * ((v.riseTime + v.fallTime) * (1 / 1000000000)) *
        (v.switchingFrequency * 1000)
  ∧ (checkCurrent v current).powerTotal =
      (checkCurrent v current).powerConduction + (checkCurrent v current).powerSwitching
  ∧ (checkCurrent v current).finalTemperature =
      v.ambientTemperature +
        (checkCurrent v current).powerTotal *
          (v.rthJC + v.selectedCooling.thermalResistance) := by
  exact ⟨rfl, rfl, rfl, rfl⟩

/-! ## C10: interpolated fields stay between the keyframes -/

theorem clamp01_mem (p : ℚ) : 0 ≤ max 0 (min 1 p) ∧ max 0 (min 1 p) ≤ 1 := by
  constructor
  · exact le_max_left 0 _
  · exact max_le (by norm_num) (min_le_left 1 p)

theorem easeInOutQuad_mem (t : ℚ) (h0 : 0 ≤ t) (h1 : t ≤ 1) :
    0 ≤ easeInOutQuad t ∧ easeInOutQuad t ≤ 1 := by
  unfold easeInOutQuad
  split_ifs with h
  · constructor <;> nlinarith
  · constructor <;> nlinarith

theorem blend_mem (a b e : ℚ) (h0 : 0 ≤ e) (h1 : e ≤ 1) :
    min a b ≤ a + (b - a) * e ∧ a + (b - a) * e ≤ max a b := by
  rcases le_total a b with hab | hab
  · rw [min_eq_left hab, max_eq_right hab]
    constructor <;> nlinarith
  · rw [min_eq_right hab, max_eq_left hab]
    constructor <;> nlinarith

/-- C10.  For every non-null keyframe pair and every rational progress
input (including inputs below 0 or above 1), each numeric output field
of `interpolate` lies in the closed interval between the corresponding
fields of the two keyframes: the progress is clamped to `[0,1]` and the
quadratic ease-in-out maps `[0,1]` into `[0,1]`. -/
theorem interpolate_fields_between_keyframes (f t : LiveDataPoint) (p : ℚ) :
    (min f.current t.current ≤ (interpolate (some f) t p).current
      ∧ (interpolate (some f) t p).current ≤ max f.current t.current)
  ∧ (min f.temperature t.temperature ≤ (interpolate (some f) t p).temperature
      ∧ (interpolate (some f) t p).temperature ≤ max f.temperature t.temperature)
  ∧ (min f.powerLoss t.powerLoss ≤ (interpolate (some f) t p).powerLoss
      ∧ (interpolate (some f) t p).powerLoss ≤ max f.powerLoss t.powerLoss)
  ∧ (min f.conductionLoss t.conductionLoss ≤ (interpolate (some f) t p).conductionLoss
      ∧ (interpolate (some f) t p).conductionLoss ≤ max f.conductionLoss t.conductionLoss)
  ∧ (min f.switchingLoss t.switchingLoss ≤ (interpolate (some f) t p).switchingLoss
      ∧ (interpolate (some f) t p).switchingLoss ≤ max f.switchingLoss t.switchingLoss)
  ∧ (min f.progress t.progress ≤ (interpolate (some f) t p).progress
      ∧ (interpolate (some f) t p).progress ≤ max f.progress t.progress) := by
  have hc := clamp01_mem p
  have he := easeInOutQuad_mem _ hc.1 hc.2
  simp only [interpolate]
  exact ⟨blend_mem _ _ _ he.1 he.2, blend_mem _ _ _ he.1 he.2,
    blend_mem _ _ _ he.1 he.2, blend_mem _ _ _ he.1 he.2,
    blend_mem _ _ _ he.1 he.2, blend_mem _ _ _ he.1 he.2⟩

/-! ## C7: the delivery queue is bounded and drops the oldest entries -/

theorem enqueue_drop_oldest (xs : List LiveDataPoint) (x : LiveDataPoint) :
    enqueue (xs.drop (xs.length - maxQueueSize)) x =
      (xs ++ [x]).drop ((xs ++ [x]).length - maxQueueSize) := by
  have hmq : maxQueueSize = 1000 := rfl
  unfold enqueue
  rcases le_or_lt xs.length maxQueueSize with hle | hlt
  · rw [Nat.sub_eq_zero_of_le hle, List.drop_zero]
    have hlen : (xs ++ [x]).length = xs.length + 1 := by simp
    rcases eq_or_lt_of_le hle with heq | hlt2
    · -- the queue was exactly full: one element is evicted
      rw [if_pos (by simp [heq])]
    · -- still below the bound: nothing is dropped
      rw [if_neg (by simp; omega)]
      rw [hlen, Nat.sub_eq_zero_of_le (by omega), List.drop_zero]
  · -- the stored queue was already trimmed to the newest maxQueueSize
    have hq : (xs.drop (xs.length - maxQueueSize)).length = maxQueueSize := by
      rw [List.length_drop]; omega
    rw [if_pos (by simp [hq])]
    have h1 : (xs.drop (xs.length - maxQueueSize) ++ [x]).length - maxQueueSize = 1 := by
      simp [hq]
    rw [h1, List.drop_append_of_le_length
      (by rw [hq]; omega : 1 ≤ (xs.drop (xs.length - maxQueueSize)).length),
      List.drop_drop]
    have h2 : (xs ++ [x]).length - maxQueueSize = xs.length - maxQueueSize + 1 := by
      simp; omega
    rw [h2, List.drop_append_of_le_length
      (by omega : xs.length - maxQueueSize + 1 ≤ xs.length)]

/-- C7.  Starting from an empty queue, after any sequence of `enqueue`
calls the queue holds exactly the newest `maxQueueSize` (1000) of the
enqueued points — so it never exceeds the bound, and on overflow the
oldest entries are the ones dropped.  Quantifying over all `xs` covers
the state after every intermediate enqueue as well. -/
theorem enqueue_bounded_newest (xs : List LiveDataPoint) :
    List.foldl enqueue [] xs = xs.drop (xs.length - maxQueueSize)
  ∧ (List.foldl enqueue [] xs).length ≤ maxQueueSize := by
  have main : List.foldl enqueue [] xs = xs.drop (xs.length - maxQueueSize) := by
    induction xs using List.reverseRecOn with
    | nil => rfl
    | append_singleton ys y ih =>
        rw [List.foldl_append, List.foldl_cons, List.foldl_nil, ih, enqueue_drop_oldest]
  refine ⟨main, ?_⟩
  rw [main, List.length_drop]
  omega

/-! ## C8: the drain policy (8 ms no-op window, per-algorithm batching) -/

/-- C8.  A `dequeue` call made less than 8 ms after the last processed
drain returns nothing and removes nothing.  Otherwise, on a non-empty
queue: in binary mode exactly the one oldest point is removed and
returned; in iterative mode the batch of the `max(1, ⌊backlog/10⌋)`
oldest points is removed and only the last point of that batch is
returned. -/
theorem dequeue_policy (s : QueueState) (algorithm : SimAlgorithm) (now : ℚ) :
    (now - s.lastProcessTime < 8 → dequeue s algorithm now = (none, s))
  ∧ (∀ x rest, s.queue = x :: rest → ¬ now - s.lastProcessTime < 8 →
      dequeue s SimAlgorithm.binary now = (some x, ⟨rest, now⟩))
  ∧ (s.queue ≠ [] → ¬ now - s.lastProcessTime < 8 →
      dequeue s SimAlgorithm.iterative now =
        ((s.queue.take (max 1 (s.queue.length / 10))).getLast?,
          ⟨s.queue.drop (max 1 (s.queue.length / 10)), now⟩)) := by
  refine ⟨?_, ?_, ?_⟩
  · intro ht
    simp [dequeue, ht]
  · intro x rest hq ht
    simp [dequeue, hq, ht]
  · intro hne ht
    simp [dequeue, List.length_eq_zero, hne, ht]

/-! ## C3: first-to-fail evaluates the checks in a fixed priority order -/

theorem checkCurrent_failureReason_ftf (v : FormValues) (c : ℚ)
    (hm : v.simulationMode = SimMode.ftf) :
    (checkCurrent v c).failureReason = ftfFailure v c := by
  simp [checkCurrent, failureReasonAt, hm]

/-- C3.  In first-to-fail mode the checks are evaluated in the fixed
priority order temperature, then device power rating (when its JS-truthy
guard holds), then cooling budget, then rated current, and the reported
`failureReason` is the first check violated.  In particular, when the
power rating is exceeded while the temperature is still within limit,
the reason is Power Dissipation regardless of the later checks. -/
theorem checkCurrent_ftf_priority (v : FormValues) (c : ℚ)
    (hm : v.simulationMode = SimMode.ftf) :
    (finalTemp v c > v.maxTemperature →
        (checkCurrent v c).failureReason = some FailureReason.thermal)
  ∧ (¬ finalTemp v c > v.maxTemperature →
        truthy v.powerDissipation = true →
        pTotal v c > orZero v.powerDissipation →
        (checkCurrent v c).failureReason = some FailureReason.powerDissipation)
  ∧ (¬ finalTemp v c > v.maxTemperature →
        ¬ (truthy v.powerDissipation = true ∧ pTotal v c > orZero v.powerDissipation) →
        pTotal v c > effectiveCoolingBudget v →
        (checkCurrent v c).failureReason = some FailureReason.coolingBudget)
  ∧ (¬ finalTemp v c > v.maxTemperature →
        ¬ (truthy v.powerDissipation = true ∧ pTotal v c > orZero v.powerDissipation) →
        ¬ pTotal v c > effectiveCoolingBudget v →
        c > v.maxCurrent →
        (checkCurrent v c).failureReason = some FailureReason.currentLimit) := by
  rw [checkCurrent_failureReason_ftf v c hm]
  refine ⟨?_, ?_, ?_, ?_⟩
  · intro h1
    simp [ftfFailure, h1]
  · intro h1 h2 h3
    simp [ftfFailure, h1, h2, h3]
  · intro h1 h2 h3
    simp [ftfFailure, h1, h2, h3]
  · intro h1 h2 h3 h4
    simp [ftfFailure, h1, h2, h3, h4]

/-- Concrete first-to-fail parameters: a resistive-channel device with
a 3 W power rating, thermal limit 175 °C, cooling budget 25 W. -/
def vFtf : FormValues :=
  { transistorIsMosfet := true
    maxCurrent := 10
    maxVoltage := 50
    powerDissipation := some 3
    rdsOn := some 2000
    vceSat := none
    riseTime := 0
    fallTime := 0
    rthJC := 1
    maxTemperature := 175
    simulationMode := SimMode.ftf
    simulationAlgorithm := SimAlgorithm.iterative
    precisionSteps := 10
    switchingFrequency := 100
    ambientTemperature := 25
    coolingBudget := none
    selectedCooling := ⟨3 / 2, 25⟩ }

/-- C3 witness: at 2 A the device dissipates 4 W (> 3 W rating) while
the junction stays at 35 °C (< 175 °C limit), so the reported reason is
Power Dissipation. -/
theorem checkCurrent_ftf_priority_witness :
    (checkCurrent vFtf 2).failureReason = some FailureReason.powerDissipation :=
  (checkCurrent_ftf_priority vFtf 2 rfl).2.1
    (by norm_num [finalTemp, pTotal, pCond, pSw, rdsOnOhms, tSwitchingSec, fSwHz,
      totalRth, orZero, vFtf])
    (by norm_num [truthy, vFtf])
    (by norm_num [pTotal, pCond, pSw, rdsOnOhms, tSwitchingSec, fSwHz, orZero, vFtf])

/-! ## Sample data points used by the queue witnesses -/

def dpA : LiveDataPoint := ⟨1, 30, 5, 3, 2, 10, 100⟩

def dpB : LiveDataPoint := ⟨2, 40, 8, 5, 3, 20, 100⟩

/-- C8 witness: with 10 ms elapsed since the last processed drain, a
binary-mode dequeue on the two-point queue removes and returns the
oldest point and stamps the drain time. -/
theorem dequeue_policy_witness :
    dequeue ⟨[dpA, dpB], 0⟩ SimAlgorithm.binary 10 = (some dpA, ⟨[dpB], 10⟩) :=
  (dequeue_policy ⟨[dpA, dpB], 0⟩ SimAlgorithm.binary 10).2.1 dpA [dpB] rfl (by norm_num)

/-! ## C4: the linear sweep -/

theorem sweepGo_safe_prefix (v : FormValues) (l₁ l₂ : List ℕ) (msc : ℚ)
    (pts : List LiveDataPoint)
    (hsafe : ∀ i ∈ l₁, (checkCurrent v ((i : ℚ) * stepSize v)).isSafe = true) :
    sweepGo v msc pts (l₁ ++ l₂) =
      sweepGo v (l₁.foldl (fun _ (i : ℕ) => (i : ℚ) * stepSize v) msc)
        (pts ++ l₁.map fun (i : ℕ) => addDataPoint v ((i : ℚ) * stepSize v)) l₂ := by
  induction l₁ generalizing msc pts with
  | nil =>
      simp only [List.nil_append, List.foldl_nil, List.map_nil, List.append_nil]
  | cons i l₁ ih =>
      have hi := hsafe i (List.mem_cons_self i l₁)
      simp only [List.cons_append, sweepGo, hi, if_true, List.foldl_cons, List.map_cons,
        List.append_eq]
      rw [ih _ _ fun j hj => hsafe j (List.mem_cons_of_mem i hj)]
      simp only [List.append_assoc, List.singleton_append]

theorem foldl_replace_range (k : ℕ) (f : ℕ → ℚ) (a : ℚ) (hk : 0 < k) :
    (List.range k).foldl (fun _ (i : ℕ) => f i) a = f (k - 1) := by
  obtain ⟨n, rfl⟩ : ∃ n, k = n + 1 := ⟨k - 1, by omega⟩
  rw [List.range_succ, List.foldl_append]
  simp

theorem range_eq_append_cons {i k : ℕ} (h : i < k) :
    ∃ t, List.range k = List.range i ++ i :: t := by
  induction k with
  | zero => omega
  | succ n ih =>
      rcases Nat.lt_or_ge i n with hin | hin
      · obtain ⟨t, ht⟩ := ih hin
        exact ⟨t ++ [n], by rw [List.range_succ, ht]; simp⟩
      · have hieq : i = n := by omega
        subst hieq
        exact ⟨[], by rw [List.range_succ]⟩

/-- C4.  The linear sweep probes the currents `i * stepSize` for
`i = 0, …, precisionSteps`, where `precisionSteps` equal increments
span `0` to `maxCurrent × 1.2`; it emits one sample per passing step;
it stops at the first failing step and the loop's safe current is the
previous (last passing) step's current; and when the sweep completes
with no failing step the finalized result reports `maxCurrent` itself
(the clamp of `1.2 × maxCurrent`). -/
theorem linear_sweep_spec (v : FormValues)
    (hM : 0 ≤ v.maxCurrent) (hP : 0 < v.precisionSteps)
    (hAlg : v.simulationAlgorithm = SimAlgorithm.iterative) :
    (v.precisionSteps : ℚ) * stepSize v = v.maxCurrent * (12 / 10)
  ∧ (∀ i : ℕ, 0 < i → i ≤ v.precisionSteps →
      (∀ j : ℕ, j < i → (checkCurrent v ((j : ℚ) * stepSize v)).isSafe = true) →
      (checkCurrent v ((i : ℚ) * stepSize v)).isSafe = false →
      runIterative v =
        (((i - 1 : ℕ) : ℚ) * stepSize v,
          (List.range i).map fun (j : ℕ) => addDataPoint v ((j : ℚ) * stepSize v)))
  ∧ ((∀ j : ℕ, j ≤ v.precisionSteps →
        (checkCurrent v ((j : ℚ) * stepSize v)).isSafe = true) →
      (runSimulation v).1.maxSafeCurrent = v.maxCurrent
      ∧ (runSimulation v).2 =
          (List.range (v.precisionSteps + 1)).map fun (j : ℕ) =>
            addDataPoint v ((j : ℚ) * stepSize v)) := by
  have hne : (v.precisionSteps : ℚ) ≠ 0 := by
    exact_mod_cast Nat.pos_iff_ne_zero.mp hP
  have hspan : (v.precisionSteps : ℚ) * stepSize v = v.maxCurrent * (12 / 10) := by
    rw [stepSize, mul_comm, div_mul_cancel₀ _ hne]
  refine ⟨hspan, ?_, ?_⟩
  · intro i hi0 hile hsafe hfail
    have hlt : i < v.precisionSteps + 1 := by omega
    obtain ⟨t, ht⟩ := range_eq_append_cons hlt
    unfold runIterative
    rw [ht, sweepGo_safe_prefix v (List.range i) (i :: t) 0 []
      fun j hj => hsafe j (List.mem_range.mp hj)]
    simp only [sweepGo, hfail, Bool.false_eq_true, if_false, List.nil_append]
    rw [foldl_replace_range i _ 0 hi0]
  · intro hsafe
    have hrun : runIterative v =
        ((v.precisionSteps : ℚ) * stepSize v,
          (List.range (v.precisionSteps + 1)).map fun (j : ℕ) =>
            addDataPoint v ((j : ℚ) * stepSize v)) := by
      unfold runIterative
      rw [show List.range (v.precisionSteps + 1) =
            List.range (v.precisionSteps + 1) ++ [] from by simp,
        sweepGo_safe_prefix v (List.range (v.precisionSteps + 1)) [] 0 []
          fun j hj => hsafe j (by have := List.mem_range.mp hj; omega)]
      rw [foldl_replace_range (v.precisionSteps + 1) _ 0 (by omega)]
      simp [sweepGo]
    constructor
    · rw [runSimulation_fst, hAlg, hrun, finalize_maxSafeCurrent, hspan]
      exact min_eq_right (by linarith)
    · simp only [runSimulation, hAlg, hrun]

/-- Concrete linear-sweep parameters, temperature-limit mode: a 2 Ω
resistive-channel device (no switching loss), ambient 25 °C, limit
100 °C, three precision steps spanning 0–12 A in 4 A increments.  The
probes at 0, 4 and 8 A stay below 100 °C; the probe at 12 A reaches
169 °C and fails. -/
def vSweep : FormValues :=
  { transistorIsMosfet := true
    maxCurrent := 10
    maxVoltage := 50
    powerDissipation := none
    rdsOn := some 2000
    vceSat := none
    riseTime := 0
    fallTime := 0
    rthJC := 1 / 2
    maxTemperature := 100
    simulationMode := SimMode.temp
    simulationAlgorithm := SimAlgorithm.iterative
    precisionSteps := 3
    switchingFrequency := 100
    ambientTemperature := 25
    coolingBudget := none
    selectedCooling := ⟨1 / 2, 25⟩ }

/-- C4 witness: the sweep stops at the failing 12 A step and keeps the
previous step's 8 A as the safe current. -/
theorem linear_sweep_spec_witness : (runIterative vSweep).1 = 8 := by
  have h := (linear_sweep_spec vSweep (by norm_num [vSweep]) (by norm_num [vSweep]) rfl).2.1 3
    (by norm_num) (by norm_num [vSweep])
    (fun j hj => by
      interval_cases j <;>
        norm_num [checkCurrent, failureReasonAt, finalTemp, pTotal, pCond, pSw,
          rdsOnOhms, tSwitchingSec, fSwHz, totalRth, orZero, stepSize, vSweep])
    (by
      norm_num [checkCurrent, failureReasonAt, finalTemp, pTotal, pCond, pSw,
        rdsOnOhms, tSwitchingSec, fSwHz, totalRth, orZero, stepSize, vSweep])
  rw [h]
  norm_num [stepSize, vSweep]

/-! ## C5: the bisection search -/

theorem bisectGo_invariant (v : FormValues) :
    ∀ (fuel : ℕ) (low high msc : ℚ) (pts : List LiveDataPoint),
      0 ≤ low → low < high → msc = low →
      ∃ newPts : List LiveDataPoint,
        (bisectGo v fuel low high msc pts).2 = pts ++ newPts
        ∧ newPts.length = fuel
        ∧ (∀ pt ∈ newPts, low < pt.current ∧ pt.current < high
            ∧ pt = addDataPoint v pt.current)
        ∧ msc ≤ (bisectGo v fuel low high msc pts).1
        ∧ ((bisectGo v fuel low high msc pts).1 = msc
            ∨ (checkCurrent v (bisectGo v fuel low high msc pts).1).isSafe = true
              ∧ ∃ pt ∈ newPts, pt.current = (bisectGo v fuel low high msc pts).1)
        ∧ (∀ pt ∈ newPts, (checkCurrent v pt.current).isSafe = true →
            pt.current ≤ (bisectGo v fuel low high msc pts).1) := by
  intro fuel
  induction fuel with
  | zero =>
      intro low high msc pts h0 hlh hm
      exact ⟨[], by simp [bisectGo], rfl, by simp, le_refl msc, Or.inl rfl, by simp⟩
  | succ n ih =>
      intro low high msc pts h0 hlh hm
      have hmidlow : low < (low + high) / 2 := by linarith
      have hmidhigh : (low + high) / 2 < high := by linarith
      have hmidpos : 0 < (low + high) / 2 := lt_of_le_of_lt h0 hmidlow
      have hnotle : ¬ (low + high) / 2 ≤ 0 := not_le.mpr hmidpos
      by_cases hsafe : (checkCurrent v ((low + high) / 2)).isSafe = true
      · have hstep : bisectGo v (n + 1) low high msc pts
            = bisectGo v n ((low + high) / 2) high ((low + high) / 2)
                (pts ++ [addDataPoint v ((low + high) / 2)]) := by
          simp [bisectGo, hnotle, hsafe]
        obtain ⟨np, h2, hlen, hbnd, hmono, hdisj, hmax⟩ :=
          ih ((low + high) / 2) high ((low + high) / 2)
            (pts ++ [addDataPoint v ((low + high) / 2)])
            (le_of_lt hmidpos) hmidhigh rfl
        rw [hstep]
        refine ⟨addDataPoint v ((low + high) / 2) :: np, ?_, ?_, ?_, ?_, ?_, ?_⟩
        · rw [h2]; simp
        · simp [hlen]
        · intro pt hpt
          rcases List.mem_cons.mp hpt with rfl | hpt
          · exact ⟨hmidlow, hmidhigh, rfl⟩
          · obtain ⟨ha, hb, hc⟩ := hbnd pt hpt
            exact ⟨lt_trans hmidlow ha, hb, hc⟩
        · calc msc = low := hm
            _ ≤ (low + high) / 2 := le_of_lt hmidlow
            _ ≤ _ := hmono
        · rcases hdisj with heq | ⟨hs, pt, hpt, hcur⟩
          · right
            refine ⟨?_, addDataPoint v ((low + high) / 2), List.mem_cons_self _ _, ?_⟩
            · rw [heq]; exact hsafe
            · rw [heq]; rfl
          · exact Or.inr ⟨hs, pt, List.mem_cons_of_mem _ hpt, hcur⟩
        · intro pt hpt hs
          rcases List.mem_cons.mp hpt with rfl | hpt
          · exact hmono
          · exact hmax pt hpt hs
      · have hsafe' : (checkCurrent v ((low + high) / 2)).isSafe = false := by
          simpa using hsafe
        have hstep : bisectGo v (n + 1) low high msc pts
            = bisectGo v n low ((low + high) / 2) msc
                (pts ++ [addDataPoint v ((low + high) / 2)]) := by
          simp [bisectGo, hnotle, hsafe']
        obtain ⟨np, h2, hlen, hbnd, hmono, hdisj, hmax⟩ :=
          ih low ((low + high) / 2) msc
            (pts ++ [addDataPoint v ((low + high) / 2)]) h0 hmidlow hm
        rw [hstep]
        refine ⟨addDataPoint v ((low + high) / 2) :: np, ?_, ?_, ?_, ?_, ?_, ?_⟩
        · rw [h2]; simp
        · simp [hlen]
        · intro pt hpt
          rcases List.mem_cons.mp hpt with rfl | hpt
          · exact ⟨hmidlow, hmidhigh, rfl⟩
          · obtain ⟨ha, hb, hc⟩ := hbnd pt hpt
            exact ⟨ha, lt_trans hb hmidhigh, hc⟩
        · exact hmono
        · rcases hdisj with heq | ⟨hs, pt, hpt, hcur⟩
          · exact Or.inl heq
          · exact Or.inr ⟨hs, pt, List.mem_cons_of_mem _ hpt, hcur⟩
        · intro pt hpt hs
          rcases List.mem_cons.mp hpt with rfl | hpt
          · rw [show (addDataPoint v ((low + high) / 2)).current = (low + high) / 2
                from rfl] at hs
            exact absurd hs hsafe
          · exact hmax pt hpt hs

/-- C5.  The bisection strategy runs a fixed budget of exactly 15
iterations, each probing the midpoint of the current interval inside
`(0, maxCurrent × 1.5)` and emitting exactly one sample for it (so 15
samples in all); the loop's safe current is `0` when no midpoint passed
and otherwise is a probed midpoint that passed the check and is an
upper bound for every probed midpoint that passed — the largest
confirmed-safe midpoint. -/
theorem bisection_spec (v : FormValues) (hM : 0 < v.maxCurrent) :
    (runBinary v).2.length = 15
  ∧ (∀ pt ∈ (runBinary v).2, 0 < pt.current ∧ pt.current < v.maxCurrent * (15 / 10)
      ∧ pt = addDataPoint v pt.current)
  ∧ 0 ≤ (runBinary v).1
  ∧ ((runBinary v).1 = 0
      ∨ (checkCurrent v (runBinary v).1).isSafe = true
        ∧ ∃ pt ∈ (runBinary v).2, pt.current = (runBinary v).1)
  ∧ (∀ pt ∈ (runBinary v).2, (checkCurrent v pt.current).isSafe = true →
      pt.current ≤ (runBinary v).1) := by
  have hhigh : (0 : ℚ) < v.maxCurrent * (15 / 10) := by linarith
  obtain ⟨np, h2, hlen, hbnd, hmono, hdisj, hmax⟩ :=
    bisectGo_invariant v 15 0 (v.maxCurrent * (15 / 10)) 0 [] (le_refl 0) hhigh rfl
  have hrb2 : (runBinary v).2 = np := by
    rw [show (runBinary v).2 = (bisectGo v 15 0 (v.maxCurrent * (15 / 10)) 0 []).2 from rfl,
      h2, List.nil_append]
  have hrb1 : (runBinary v).1 = (bisectGo v 15 0 (v.maxCurrent * (15 / 10)) 0 []).1 := rfl
  refine ⟨?_, ?_, ?_, ?_, ?_⟩
  · rw [hrb2, hlen]
  · intro pt hpt
    exact hbnd pt (hrb2 ▸ hpt)
  · rw [hrb1]; exact hmono
  · rw [hrb1]
    rcases hdisj with heq | ⟨hs, pt, hpt, hcur⟩
    · exact Or.inl heq
    · exact Or.inr ⟨hs, pt, hrb2 ▸ hpt, hcur⟩
  · intro pt hpt hs
    rw [hrb1]
    exact hmax pt (hrb2 ▸ hpt) hs

/-- The linear-sweep parameter set with the search strategy switched to
bisection. -/
def vBin : FormValues :=
  { vSweep with simulationAlgorithm := SimAlgorithm.binary }

/-- C5 witness: on the concrete bisection run exactly 15 samples are
emitted. -/
theorem bisection_spec_witness : (runBinary vBin).2.length = 15 :=
  (bisection_spec vBin (by norm_num [vBin, vSweep])).1

/-! ## C6: when current 0 already fails, the run reports failure at 0 A -/

theorem tSwitchingSec_nonneg (v : FormValues)
    (hRise : 0 ≤ v.riseTime) (hFall : 0 ≤ v.fallTime) : 0 ≤ tSwitchingSec v :=
  mul_nonneg (add_nonneg hRise hFall) (by norm_num)

theorem pTotal_nonneg (v : FormValues) (c : ℚ) (hc : 0 ≤ c)
    (hRds : 0 ≤ orZero v.rdsOn) (hVce : 0 ≤ orZero v.vceSat) (hV : 0 ≤ v.maxVoltage)
    (hRise : 0 ≤ v.riseTime) (hFall : 0 ≤ v.fallTime)
    (hFreq : 0 ≤ v.switchingFrequency) : 0 ≤ pTotal v c := by
  have ht : 0 ≤ tSwitchingSec v := tSwitchingSec_nonneg v hRise hFall
  have hf : 0 ≤ fSwHz v := mul_nonneg hFreq (by norm_num)
  have hcond : 0 ≤ pCond v c := by
    unfold pCond
    split_ifs
    · exact mul_nonneg (mul_nonneg (sq_nonneg c)
        (div_nonneg hRds (by norm_num) : 0 ≤ rdsOnOhms v)) (by norm_num)
    · exact mul_nonneg (mul_nonneg hc hVce) (by norm_num)
  have hsw : 0 ≤ pSw v c :=
    mul_nonneg (mul_nonneg (mul_nonneg (mul_nonneg (by norm_num) hV) hc) ht) hf
  exact add_nonneg hcond hsw

theorem pTotal_zero (v : FormValues) : pTotal v 0 = 0 := by
  unfold pTotal pCond pSw
  split_ifs <;> ring

theorem finalTemp_zero (v : FormValues) : finalTemp v 0 = v.ambientTemperature := by
  unfold finalTemp
  rw [pTotal_zero]
  ring

theorem isSafe_eq_false_iff (v : FormValues) (c : ℚ) :
    (checkCurrent v c).isSafe = false ↔ failureReasonAt v c ≠ none := by
  simp [checkCurrent, Option.isNone_iff_eq_none, Option.isSome_iff_ne_none]

theorem ftfFailure_eq_none_iff (v : FormValues) (c : ℚ) :
    ftfFailure v c = none ↔
      ¬ finalTemp v c > v.maxTemperature
      ∧ ¬ (truthy v.powerDissipation = true ∧ pTotal v c > orZero v.powerDissipation)
      ∧ ¬ pTotal v c > effectiveCoolingBudget v
      ∧ ¬ c > v.maxCurrent := by
  unfold ftfFailure
  split_ifs with h1 h2 h3 h4 <;> simp_all

theorem unsafe_zero_propagates (v : FormValues)
    (hM : 0 < v.maxCurrent)
    (hRds : 0 ≤ orZero v.rdsOn) (hVce : 0 ≤ orZero v.vceSat) (hV : 0 ≤ v.maxVoltage)
    (hRise : 0 ≤ v.riseTime) (hFall : 0 ≤ v.fallTime)
    (hFreq : 0 ≤ v.switchingFrequency)
    (hRth : 0 ≤ v.rthJC) (hCool : 0 ≤ v.selectedCooling.thermalResistance)
    (h0 : (checkCurrent v 0).isSafe = false) :
    ∀ c : ℚ, 0 ≤ c → (checkCurrent v c).isSafe = false := by
  intro c hc
  have hpt : 0 ≤ pTotal v c := pTotal_nonneg v c hc hRds hVce hV hRise hFall hFreq
  have hrth : 0 ≤ totalRth v := add_nonneg hRth hCool
  have htemp : v.ambientTemperature ≤ finalTemp v c := by
    unfold finalTemp
    nlinarith [mul_nonneg hpt hrth]
  rw [isSafe_eq_false_iff] at h0 ⊢
  cases hsm : v.simulationMode with
  | temp =>
      simp only [failureReasonAt, hsm] at h0 ⊢
      have hamb : finalTemp v 0 > v.maxTemperature := by
        by_contra hn
        rw [if_neg hn] at h0
        exact h0 rfl
      rw [finalTemp_zero] at hamb
      rw [if_pos (lt_of_lt_of_le hamb htemp)]
      simp
  | budget =>
      simp only [failureReasonAt, hsm] at h0 ⊢
      have hneg : pTotal v 0 > effectiveCoolingBudget v := by
        by_contra hn
        rw [if_neg hn] at h0
        exact h0 rfl
      rw [pTotal_zero] at hneg
      rw [if_pos (lt_of_lt_of_le hneg hpt)]
      simp
  | ftf =>
      simp only [failureReasonAt, hsm] at h0 ⊢
      intro heqc
      rw [ftfFailure_eq_none_iff] at heqc
      obtain ⟨hn1, hn2, hn3, hn4⟩ := heqc
      apply h0
      rw [ftfFailure_eq_none_iff]
      refine ⟨?_, ?_, ?_, ?_⟩
      · rw [finalTemp_zero]
        intro hgt
        exact hn1 (lt_of_lt_of_le hgt htemp)
      · rintro ⟨ht, hgt⟩
        rw [pTotal_zero] at hgt
        exact hn2 ⟨ht, lt_of_lt_of_le hgt hpt⟩
      · rw [pTotal_zero]
        intro hgt
        exact hn3 (lt_of_lt_of_le hgt hpt)
      · intro hgt
        exact absurd hM (by linarith)

theorem finalize_zero_unsafe (v : FormValues) (hM : 0 ≤ v.maxCurrent)
    (h0 : (checkCurrent v 0).isSafe = false) :
    (finalize v 0).status = Status.failure ∧ (finalize v 0).maxSafeCurrent = 0 := by
  have hmin : min (0 : ℚ) v.maxCurrent = 0 := min_eq_left hM
  simp only [finalize, hmin, h0]
  simp

/-- C6.  For valid (nonnegative-rating) parameters under which current
`0` already fails the active limit check — for example ambient above
`maxTemperature` in temperature-limit mode — the run terminates with
status failure and `maxSafeCurrent = 0`, whichever search strategy is
selected: every nonnegative probed current also fails, the loop's safe
current stays `0`, and the finalizer re-check at `0` reports the
failure. -/
theorem zero_current_failure (v : FormValues)
    (hM : 0 < v.maxCurrent)
    (hRds : 0 ≤ orZero v.rdsOn) (hVce : 0 ≤ orZero v.vceSat) (hV : 0 ≤ v.maxVoltage)
    (hRise : 0 ≤ v.riseTime) (hFall : 0 ≤ v.fallTime)
    (hFreq : 0 ≤ v.switchingFrequency)
    (hRth : 0 ≤ v.rthJC) (hCool : 0 ≤ v.selectedCooling.thermalResistance)
    (h0 : (checkCurrent v 0).isSafe = false) :
    (runSimulation v).1.status = Status.failure
    ∧ (runSimulation v).1.maxSafeCurrent = 0 := by
  have hall := unsafe_zero_propagates v hM hRds hVce hV hRise hFall hFreq hRth hCool h0
  have hmsc : (match v.simulationAlgorithm with
      | SimAlgorithm.iterative => runIterative v
      | SimAlgorithm.binary => runBinary v).1 = 0 := by
    cases halg : v.simulationAlgorithm with
    | iterative =>
        simp only
        unfold runIterative
        rw [List.range_succ_eq_map]
        simp [sweepGo, h0]
    | binary =>
        simp only
        obtain ⟨np, h2, hlen, hbnd, hmono, hdisj, hmax⟩ :=
          bisectGo_invariant v 15 0 (v.maxCurrent * (15 / 10)) 0 []
            (le_refl 0) (by linarith) rfl
        show (bisectGo v 15 0 (v.maxCurrent * (15 / 10)) 0 []).1 = 0
        rcases hdisj with heq | ⟨hs, pt, hpt, hcur⟩
        · exact heq
        · exfalso
          have hfalse := hall _ hmono
          rw [hs] at hfalse
          cases hfalse
  have hfin := finalize_zero_unsafe v (le_of_lt hM) h0
  constructor
  · rw [runSimulation_fst, hmsc]
    exact hfin.1
  · rw [runSimulation_fst, hmsc]
    exact hfin.2

/-- The linear-sweep parameter set with ambient temperature 200 °C
above the 175 °C junction limit: current 0 already fails. -/
def vZero : FormValues :=
  { vSweep with ambientTemperature := 200, maxTemperature := 175 }

/-- C6 witness: with ambient 200 °C against a 175 °C limit in
temperature-limit mode, the run reports failure with safe current 0. -/
theorem zero_current_failure_witness :
    (runSimulation vZero).1.status = Status.failure
    ∧ (runSimulation vZero).1.maxSafeCurrent = 0 :=
  zero_current_failure vZero
    (by norm_num [vZero, vSweep])
    (by norm_num [orZero, vZero, vSweep])
    (by norm_num [orZero, vZero, vSweep])
    (by norm_num [vZero, vSweep])
    (by norm_num [vZero, vSweep])
    (by norm_num [vZero, vSweep])
    (by norm_num [vZero, vSweep])
    (by norm_num [vZero, vSweep])
    (by norm_num [vZero, vSweep])
    (by norm_num [checkCurrent, failureReasonAt, finalTemp, pTotal, pCond, pSw,
      rdsOnOhms, tSwitchingSec, fSwHz, totalRth, orZero, vZero, vSweep])

/-! ## C9: bounds on the progress of emitted data points -/

theorem sweepGo_mem_pts (v : FormValues) :
    ∀ (l : List ℕ) (msc : ℚ) (pts : List LiveDataPoint) (pt : LiveDataPoint),
      pt ∈ pts → pt ∈ (sweepGo v msc pts l).2 := by
  intro l
  induction l with
  | nil => intro msc pts pt hpt; simpa [sweepGo] using hpt
  | cons i l ih =>
      intro msc pts pt hpt
      by_cases hs : (checkCurrent v ((i : ℚ) * stepSize v)).isSafe = true
      · rw [show sweepGo v msc pts (i :: l)
            = sweepGo v ((i : ℚ) * stepSize v)
                (pts ++ [addDataPoint v ((i : ℚ) * stepSize v)]) l from by
          simp [sweepGo, hs]]
        exact ih _ _ pt (List.mem_append_left _ hpt)
      · have hs' : (checkCurrent v ((i : ℚ) * stepSize v)).isSafe = false := by
          simpa using hs
        rw [show sweepGo v msc pts (i :: l) = (msc, pts) from by simp [sweepGo, hs']]
        exact hpt

theorem sweepGo_emitted (v : FormValues) :
    ∀ (l : List ℕ) (msc : ℚ) (pts : List LiveDataPoint) (pt : LiveDataPoint),
      pt ∈ (sweepGo v msc pts l).2 →
      pt ∈ pts ∨ ∃ i ∈ l, pt = addDataPoint v ((i : ℚ) * stepSize v) := by
  intro l
  induction l with
  | nil =>
      intro msc pts pt hpt
      exact Or.inl (by simpa [sweepGo] using hpt)
  | cons i l ih =>
      intro msc pts pt hpt
      by_cases hs : (checkCurrent v ((i : ℚ) * stepSize v)).isSafe = true
      · rw [show sweepGo v msc pts (i :: l)
            = sweepGo v ((i : ℚ) * stepSize v)
                (pts ++ [addDataPoint v ((i : ℚ) * stepSize v)]) l from by
          simp [sweepGo, hs]] at hpt
        rcases ih _ _ pt hpt with hmem | ⟨j, hj, heq⟩
        · rcases List.mem_append.mp hmem with h | h
          · exact Or.inl h
          · exact Or.inr ⟨i, List.mem_cons_self i l, List.mem_singleton.mp h⟩
        · exact Or.inr ⟨j, List.mem_cons_of_mem _ hj, heq⟩
      · have hs' : (checkCurrent v ((i : ℚ) * stepSize v)).isSafe = false := by
          simpa using hs
        rw [show sweepGo v msc pts (i :: l) = (msc, pts) from by simp [sweepGo, hs']] at hpt
        exact Or.inl hpt

theorem addDataPoint_progress_mem (v : FormValues) (c : ℚ) (hc : 0 ≤ c)
    (hAmb : 0 ≤ v.ambientTemperature) (hT : 0 ≤ v.maxTemperature)
    (hBud : 0 ≤ effectiveCoolingBudget v) (hM : 0 ≤ v.maxCurrent)
    (hRds : 0 ≤ orZero v.rdsOn) (hVce : 0 ≤ orZero v.vceSat) (hV : 0 ≤ v.maxVoltage)
    (hRise : 0 ≤ v.riseTime) (hFall : 0 ≤ v.fallTime)
    (hFreq : 0 ≤ v.switchingFrequency)
    (hRth : 0 ≤ v.rthJC) (hCool : 0 ≤ v.selectedCooling.thermalResistance) :
    0 ≤ (addDataPoint v c).progress ∧ (addDataPoint v c).progress ≤ 100 := by
  have hpt : 0 ≤ pTotal v c := pTotal_nonneg v c hc hRds hVce hV hRise hFall hFreq
  have hrth : 0 ≤ totalRth v := add_nonneg hRth hCool
  have hft : 0 ≤ finalTemp v c := by
    unfold finalTemp
    have := mul_nonneg hpt hrth
    linarith
  have hraw : 0 ≤ rawProgress v c := by
    cases hsm : v.simulationMode with
    | temp =>
        simp only [rawProgress, hsm]
        exact mul_nonneg (div_nonneg hft hT) (by norm_num)
    | budget =>
        simp only [rawProgress, hsm]
        exact mul_nonneg (div_nonneg hpt hBud) (by norm_num)
    | ftf =>
        simp only [rawProgress, hsm]
        exact le_max_of_le_right (mul_nonneg (div_nonneg hc hM) (by norm_num))
  constructor
  · exact le_min hraw (by norm_num)
  · exact min_le_right _ _

/-- C9 (amended).  Every data point emitted by `runSimulation` — in
any termination mode and either search strategy — has
`progress ≤ 100` (the `Math.min` clamp), and, provided the ambient
temperature is nonnegative (with the other parameters in their valid
nonnegative ranges), also `progress ≥ 0`, hence `progress ∈ [0,100]`.
The lower bound needs the ambient hypothesis: only the upper side is
clamped in `addDataPoint`. -/
theorem emitted_progress_bounds (v : FormValues)
    (hAmb : 0 ≤ v.ambientTemperature) (hT : 0 ≤ v.maxTemperature)
    (hBud : 0 ≤ effectiveCoolingBudget v) (hM : 0 < v.maxCurrent)
    (hRds : 0 ≤ orZero v.rdsOn) (hVce : 0 ≤ orZero v.vceSat) (hV : 0 ≤ v.maxVoltage)
    (hRise : 0 ≤ v.riseTime) (hFall : 0 ≤ v.fallTime)
    (hFreq : 0 ≤ v.switchingFrequency)
    (hRth : 0 ≤ v.rthJC) (hCool : 0 ≤ v.selectedCooling.thermalResistance) :
    ∀ pt ∈ (runSimulation v).2, 0 ≤ pt.progress ∧ pt.progress ≤ 100 := by
  intro pt hpt
  have hstep : 0 ≤ stepSize v :=
    div_nonneg (mul_nonneg (le_of_lt hM) (by norm_num)) (Nat.cast_nonneg _)
  cases halg : v.simulationAlgorithm with
  | iterative =>
      have hpt2 : pt ∈ (runIterative v).2 := by
        simpa only [runSimulation, halg] using hpt
      rcases sweepGo_emitted v (List.range (v.precisionSteps + 1)) 0 [] pt hpt2 with
        hmem | ⟨i, _, heq⟩
      · exact absurd hmem (List.not_mem_nil pt)
      · rw [heq]
        exact addDataPoint_progress_mem v _ (mul_nonneg (Nat.cast_nonneg i) hstep)
          hAmb hT hBud (le_of_lt hM) hRds hVce hV hRise hFall hFreq hRth hCool
  | binary =>
      have hpt2 : pt ∈ (runBinary v).2 := by
        simpa only [runSimulation, halg] using hpt
      obtain ⟨np, h2, hlen, hbnd, hmono, hdisj, hmax⟩ :=
        bisectGo_invariant v 15 0 (v.maxCurrent * (15 / 10)) 0 []
          (le_refl 0) (by linarith) rfl
      have hmem : pt ∈ np := by
        rw [show (runBinary v).2 = (bisectGo v 15 0 (v.maxCurrent * (15 / 10)) 0 []).2
          from rfl, h2, List.nil_append] at hpt2
        exact hpt2
      obtain ⟨ha, hb, hc⟩ := hbnd pt hmem
      rw [hc]
      exact addDataPoint_progress_mem v pt.current (le_of_lt ha)
        hAmb hT hBud (le_of_lt hM) hRds hVce hV hRise hFall hFreq hRth hCool

/-- The linear-sweep parameter set with ambient temperature −100 °C in
temperature-limit mode (the form accepts any ambient temperature; the
limit is 150 °C, so every probe passes). -/
def vNeg : FormValues :=
  { vSweep with ambientTemperature := -100, maxTemperature := 150 }

/-- C9 counterexample: on `vNeg` the first emitted data point is the
probe at 0 A, whose stored progress is `(−100 / 150) × 100 = −200/3`,
strictly below 0 — `addDataPoint` clamps progress only from above, so
the claimed invariant `progress ∈ [0,100]` fails as stated. -/
theorem progress_below_zero_counterexample :
    (runSimulation vNeg).2.head? = some (addDataPoint vNeg 0)
    ∧ (addDataPoint vNeg 0).progress < 0 := by
  constructor
  · have hsafe : ∀ i ∈ List.range (vNeg.precisionSteps + 1),
        (checkCurrent vNeg ((i : ℚ) * stepSize vNeg)).isSafe = true := by
      intro i hi
      have : i < 4 := by
        simpa [vNeg, vSweep] using List.mem_range.mp hi
      interval_cases i <;>
        norm_num [checkCurrent, failureReasonAt, finalTemp, pTotal, pCond, pSw,
          rdsOnOhms, tSwitchingSec, fSwHz, totalRth, orZero, stepSize, vNeg, vSweep]
    have halg : vNeg.simulationAlgorithm = SimAlgorithm.iterative := rfl
    have h2 : (runSimulation vNeg).2 = (runIterative vNeg).2 := by
      simp only [runSimulation, halg]
    rw [h2]
    unfold runIterative
    rw [show List.range (vNeg.precisionSteps + 1)
        = List.range (vNeg.precisionSteps + 1) ++ [] from by simp,
      sweepGo_safe_prefix vNeg (List.range (vNeg.precisionSteps + 1)) [] 0 [] hsafe]
    rw [show (vNeg.precisionSteps + 1) = 4 from rfl]
    simp [sweepGo, List.range_succ_eq_map]
  · norm_num [addDataPoint, rawProgress, limitValueFor, finalTemp, pTotal, pCond,
      pSw, rdsOnOhms, tSwitchingSec, fSwHz, totalRth, orZero, vNeg, vSweep]

/-- C9 witness: on the valid nonnegative-ambient parameter set, the
emitted probe at 0 A has progress within `[0,100]`. -/
theorem emitted_progress_bounds_witness :
    0 ≤ (addDataPoint vSweep 0).progress ∧ (addDataPoint vSweep 0).progress ≤ 100 := by
  refine emitted_progress_bounds vSweep
    (by norm_num [vSweep]) (by norm_num [vSweep])
    (by norm_num [effectiveCoolingBudget, truthy, vSweep])
    (by norm_num [vSweep])
    (by norm_num [orZero, vSweep]) (by norm_num [orZero, vSweep])
    (by norm_num [vSweep]) (by norm_num [vSweep]) (by norm_num [vSweep])
    (by norm_num [vSweep]) (by norm_num [vSweep]) (by norm_num [vSweep])
    (addDataPoint vSweep 0) ?_
  have hsafe0 : ∀ i ∈ ([0] : List ℕ),
      (checkCurrent vSweep ((i : ℚ) * stepSize vSweep)).isSafe = true := by
    intro i hi
    rw [List.mem_singleton.mp hi]
    norm_num [checkCurrent, failureReasonAt, finalTemp, pTotal, pCond, pSw,
      rdsOnOhms, tSwitchingSec, fSwHz, totalRth, orZero, stepSize, vSweep]
  have halg : vSweep.simulationAlgorithm = SimAlgorithm.iterative := rfl
  have h2 : (runSimulation vSweep).2 = (runIterative vSweep).2 := by
    simp only [runSimulation, halg]
  rw [h2]
  unfold runIterative
  rw [show List.range (vSweep.precisionSteps + 1) = [0] ++ [1, 2, 3] from rfl,
    sweepGo_safe_prefix vSweep [0] [1, 2, 3] 0 [] hsafe0]
  apply sweepGo_mem_pts
  simp

end AmpereAnalyzer
